import Mathlib

/-!
Verification of the ingestion-cache-summarization pipeline of the
teams-summerize-prototype repository.

The development shallowly embeds the pipeline code:

* `src/lib/db.ts` — the SQLite message cache (`saveMessage`, `getMessages`,
  `getMessagesByDateRange`, `saveSummary`) as pure state-passing functions
  over an explicit `DbState`; SQLite TEXT comparison is modelled by
  byte-wise (code-point-wise) lexicographic order on strings, and SQLite
  `DATE(x)` / JavaScript `toISOString().split('T')[0]` by taking the part
  of an ISO-8601 string before the first `T`.
* `src/lib/microsoft-graph.ts` — the retry/backoff wrapper
  (`retryWithBackoff`) over an oracle giving the outcome of each attempt,
  and the next-link pagination loop of `getChatMessages` over the list of
  pages the server returns.
* `src/lib/ollama.ts` / `src/lib/claude.ts` — `parseSummaryResponse`
  (a faithful model of the five section regexes, including the greedy
  whitespace / lazy capture / lookahead-or-end semantics of the JavaScript
  engine) and the empty-list guard of `generateSummary`, with the network
  modelled as an oracle of per-attempt outcomes.
* `src/lib/llm-provider.ts` — the `getLLMProvider` factory over the
  `AI_PROVIDER` environment value.
* `src/app/api/messages/route.ts` and `src/app/api/summarize/route.ts` —
  the cache loop of the message sync pass and the empty-range guard of the
  summarize pass.
-/

namespace TeamsSummarize

/-! ### Byte-wise string order

SQLite compares TEXT values with memcmp; for the ASCII ISO-8601 timestamps
stored in `created_at` this is code-point-wise lexicographic order, which
we define on the character lists underlying Lean strings. -/

/-- Non-strict lexicographic order on character lists, by code point. -/
def strLeData : List Char → List Char → Bool
  | [], _ => true
  | _ :: _, [] => false
  | a :: as, b :: bs =>
    if a.toNat < b.toNat then true
    else if b.toNat < a.toNat then false
    else strLeData as bs

/-- Strict lexicographic order on character lists, by code point. -/
def strLtData : List Char → List Char → Bool
  | [], [] => false
  | [], _ :: _ => true
  | _ :: _, [] => false
  | a :: as, b :: bs =>
    if a.toNat < b.toNat then true
    else if b.toNat < a.toNat then false
    else strLtData as bs

/-- Non-strict string comparison as SQLite performs it on TEXT values. -/
def strLe (a b : String) : Bool := strLeData a.data b.data

/-- Strict string comparison, modelling the SQL `>` on `created_at`. -/
def strLt (a b : String) : Bool := strLtData a.data b.data

theorem strLeData_refl (l : List Char) : strLeData l l = true := by
  induction l with
  | nil => rfl
  | cons a as ih => simp [strLeData, Nat.lt_irrefl, ih]

theorem strLeData_total (a b : List Char) :
    strLeData a b = true ∨ strLeData b a = true := by
  induction a generalizing b with
  | nil => left; rfl
  | cons x as ih =>
    cases b with
    | nil => right; rfl
    | cons y bs =>
      rcases Nat.lt_trichotomy x.toNat y.toNat with h | h | h
      · left; simp [strLeData, h]
      · have hxy : ¬ x.toNat < y.toNat := by omega
        have hyx : ¬ y.toNat < x.toNat := by omega
        rcases ih bs with h2 | h2
        · left; simp [strLeData, hxy, hyx, h2]
        · right; simp [strLeData, hxy, hyx, h2]
      · right; simp [strLeData, h]

theorem strLeData_trans (a b c : List Char)
    (hab : strLeData a b = true) (hbc : strLeData b c = true) :
    strLeData a c = true := by
  induction a generalizing b c with
  | nil => rfl
  | cons x as ih =>
    cases b with
    | nil => simp [strLeData] at hab
    | cons y bs =>
      cases c with
      | nil => simp [strLeData] at hbc
      | cons z cs =>
        by_cases hxy : x.toNat < y.toNat
        · by_cases hyz : y.toNat < z.toNat
          · have : x.toNat < z.toNat := by omega
            simp [strLeData, this]
          · by_cases hzy : z.toNat < y.toNat
            · simp [strLeData, hyz, hzy] at hbc
            · have : x.toNat < z.toNat := by omega
              simp [strLeData, this]
        · by_cases hyx : y.toNat < x.toNat
          · simp [strLeData, hxy, hyx] at hab
          · by_cases hyz : y.toNat < z.toNat
            · have : x.toNat < z.toNat := by omega
              simp [strLeData, this]
            · by_cases hzy : z.toNat < y.toNat
              · simp [strLeData, hyz, hzy] at hbc
              · have hxz : ¬ x.toNat < z.toNat := by omega
                have hzx : ¬ z.toNat < x.toNat := by omega
                simp [strLeData, hxy, hyx] at hab
                simp [strLeData, hyz, hzy] at hbc
                simp [strLeData, hxz, hzx]
                exact ih bs cs hab hbc

theorem strLtData_irrefl (l : List Char) : strLtData l l = false := by
  induction l with
  | nil => rfl
  | cons a as ih => simp [strLtData, Nat.lt_irrefl, ih]

/-! ### The section parser of `parseSummaryResponse`

`src/lib/ollama.ts` (lines 134-169) and `src/lib/claude.ts` (lines 140-174)
share the same parsing code.  Each of the five sections is extracted with a
case-insensitive regex of the shape

  `Label:?\s*([\s\S]*?)(?=\n\s*Next1:?|...|\n\s*NextK:?|$)`

Against the JavaScript engine this behaves as follows, which is what the
model implements: the match starts at the leftmost case-insensitive
occurrence of the label (the remainder of the pattern always succeeds
because of the `$` alternative, so no backtracking past the label occurs);
an immediately following `:` is consumed; the greedy `\s*` then consumes
the maximal whitespace run (including newlines); the lazy capture extends
to the first position at which some alternative `\n\s*NextLabel` of the
lookahead matches, or to the end of the string; the captured text is
`trim`med.  A label that does not occur leaves the section at `''`. -/

/-- ASCII lower-casing on code points, modelling the `/i` regex flag and
`String.prototype.toLowerCase` for the ASCII labels involved. -/
def lowerNat (n : Nat) : Nat := if 65 ≤ n ∧ n ≤ 90 then n + 32 else n

/-- JavaScript `\s` (restricted to the ASCII whitespace characters, which
are the only ones the pipeline produces). -/
def jsWhitespace (c : Char) : Bool :=
  c == ' ' || c == '\t' || c == '\n' || c == '\r' ||
  c == '\x0b' || c == '\x0c'

/-- Does `label` occur, case-insensitively, at the head of `s`? -/
def labelMatchesAt (label s : List Char) : Bool :=
  (s.take label.length).map (fun c => lowerNat c.toNat) =
    label.map (fun c => lowerNat c.toNat)

/-- Index (from `i`) of the leftmost case-insensitive occurrence of
`label` in the remaining text. -/
def findFirstLabelAux (label : List Char) : List Char → Nat → Option Nat
  | [], i => if labelMatchesAt label [] then some i else none
  | c :: rest, i =>
    if labelMatchesAt label (c :: rest) then some i
    else findFirstLabelAux label rest (i + 1)

/-- Leftmost case-insensitive occurrence of `label` in `s`, as the regex
engine finds it. -/
def findFirstLabel (label s : List Char) : Option Nat :=
  findFirstLabelAux label s 0

/-- Does the lookahead `\n\s*Label` (for one of `nextLabels`) match at the
head of `s`?  Since every label starts with a letter, the `\s*` of the
lookahead can only stop at the end of the maximal whitespace run. -/
def boundaryHere (nextLabels : List (List Char)) : List Char → Bool
  | '\n' :: rest =>
    nextLabels.any (fun l => labelMatchesAt l (rest.dropWhile jsWhitespace))
  | _ => false

/-- Offset of the first position of `s` where the lookahead matches, or
`s.length` when it never does (the `$` alternative). -/
def boundaryIndex (nextLabels : List (List Char)) : List Char → Nat
  | [] => 0
  | c :: rest =>
    if boundaryHere nextLabels (c :: rest) then 0
    else boundaryIndex nextLabels rest + 1

/-- JavaScript `String.prototype.trim` on the captured group. -/
def trimJs (l : List Char) : List Char :=
  ((l.dropWhile jsWhitespace).reverse.dropWhile jsWhitespace).reverse

/-- The captured (untrimmed is trimmed below) text of one section regex:
`none` when the label does not occur. -/
def sectionExtract (label : List Char) (nextLabels : List (List Char))
    (s : List Char) : Option (List Char) :=
  match findFirstLabel label s with
  | none => none
  | some i =>
    let afterLabel := s.drop (i + label.length)
    let afterColon :=
      match afterLabel with
      | ':' :: rest => rest
      | _ => afterLabel
    let content := afterColon.dropWhile jsWhitespace
    some (content.take (boundaryIndex nextLabels content))

/-- A matched section is trimmed; an absent one defaults to the empty
string, as the `sections` initializer of the source does. -/
def sectionToString : Option (List Char) → String
  | none => ""
  | some cs => String.mk (trimJs cs)

/-- The five structured sections of a summary
(`SummaryOutput` of `src/lib/llm-provider.ts`). -/
structure SummaryOutput where
  overview : String
  decisions : String
  actionItems : String
  blockers : String
  resources : String
deriving DecidableEq, Repr

def overviewLabel : List Char := "overview".data
def decisionsLabel : List Char := "key decisions".data
def actionItemsLabel : List Char := "action items".data
def blockersLabel : List Char := "blockers".data
def resourcesLabel : List Char := "resources".data

/-- `parseSummaryResponse` of `src/lib/ollama.ts` lines 134-169 and
`src/lib/claude.ts` lines 140-174 (the two are identical): each section is
extracted by its regex and trimmed; sections whose regex does not match
keep the `''` default. -/
def parseSummaryResponse (response : String) : SummaryOutput where
  overview := sectionToString (sectionExtract overviewLabel
    [decisionsLabel, actionItemsLabel, blockersLabel, resourcesLabel]
    response.data)
  decisions := sectionToString (sectionExtract decisionsLabel
    [actionItemsLabel, blockersLabel, resourcesLabel] response.data)
  actionItems := sectionToString (sectionExtract actionItemsLabel
    [blockersLabel, resourcesLabel] response.data)
  blockers := sectionToString (sectionExtract blockersLabel
    [resourcesLabel] response.data)
  resources := sectionToString (sectionExtract resourcesLabel [] response.data)

theorem labelMatchesAt_nil_of_ne (label : List Char) (h : label ≠ []) :
    labelMatchesAt label [] = false := by
  cases label with
  | nil => exact absurd rfl h
  | cons c cs => simp [labelMatchesAt]

theorem findFirstLabelAux_eq_none (label : List Char) (hne : label ≠ [])
    (l : List Char) :
    (∀ j, j < l.length → labelMatchesAt label (l.drop j) = false) →
    ∀ i, findFirstLabelAux label l i = none := by
  induction l with
  | nil =>
    intro _ i
    simp [findFirstLabelAux, labelMatchesAt_nil_of_ne label hne]
  | cons c rest ih =>
    intro h i
    have h0 : labelMatchesAt label (c :: rest) = false := by
      simpa using h 0 (by simp)
    have hrest : ∀ j, j < rest.length → labelMatchesAt label (rest.drop j) = false := by
      intro j hj
      simpa using h (j + 1) (by simpa using hj)
    simp [findFirstLabelAux, h0, ih hrest]

/-! ### The message cache (`src/lib/db.ts`)

The `messages` and `summaries` tables are lists of rows; `AUTOINCREMENT`
row ids are modelled by per-table counters that never reuse values, and
the SQLite connection state `sqlite3_last_insert_rowid` — which
better-sqlite3 surfaces as `result.lastInsertRowid` and which an
`ON CONFLICT DO NOTHING` statement that inserts nothing leaves unchanged —
is carried explicitly. -/

/-- One row of the `messages` table. -/
structure MsgRow where
  rowid : Nat
  messageId : String
  chatId : String
  author : Option String
  content : Option String
  createdAt : String
deriving DecidableEq, Repr

/-- One row of the `summaries` table. -/
structure SummaryRow where
  rowid : Nat
  chatId : String
  periodStart : String
  periodEnd : String
  summaryText : Option String
  actionItems : Option String
deriving DecidableEq, Repr

/-- The cache state: both tables plus the connection-level
`last_insert_rowid` and the next fresh rowid of each table. -/
structure DbState where
  messages : List MsgRow
  summaries : List SummaryRow
  lastInsertRowid : Nat
  nextMsgRowid : Nat
  nextSummaryRowid : Nat
deriving DecidableEq, Repr

/-- A freshly initialized database on a fresh connection: no rows, and
`last_insert_rowid` is 0 because no insert has happened yet. -/
def emptyDb : DbState :=
  { messages := [], summaries := [], lastInsertRowid := 0,
    nextMsgRowid := 1, nextSummaryRowid := 1 }

/-- The `Message` argument of `saveMessage`, with `createdAt` already in
ISO-8601 form (the source converts a `Date` by `toISOString()` and passes
strings through unchanged). -/
structure MessageInput where
  messageId : String
  chatId : String
  author : Option String
  content : Option String
  createdAt : String
deriving DecidableEq, Repr

/-- JavaScript `x || null`: the empty string is falsy and becomes NULL. -/
def orNull : Option String → Option String
  | some "" => none
  | x => x

/-- `saveMessage` (`src/lib/db.ts` lines 209-234, chat variant lines
645-670): `INSERT ... ON CONFLICT(message_id) DO NOTHING`, returning
`result.lastInsertRowid`.  When the id is already present the statement
inserts nothing and the returned rowid is the connection value left by
the most recent actual insert. -/
def saveMessage (st : DbState) (message : MessageInput) : DbState × Nat :=
  if st.messages.any (fun r => r.messageId == message.messageId) then
    (st, st.lastInsertRowid)
  else
    let row : MsgRow :=
      { rowid := st.nextMsgRowid, messageId := message.messageId,
        chatId := message.chatId, author := orNull message.author,
        content := orNull message.content, createdAt := message.createdAt }
    ({ st with messages := st.messages ++ [row],
               lastInsertRowid := st.nextMsgRowid,
               nextMsgRowid := st.nextMsgRowid + 1 },
     st.nextMsgRowid)

/-- The `Summary` argument of `saveSummary`, period bounds already in
ISO-8601 form. -/
structure SummaryInput where
  chatId : String
  periodStart : String
  periodEnd : String
  summaryText : Option String
  actionItems : Option String
deriving DecidableEq, Repr

/-- `saveSummary` (`src/lib/db.ts`): a plain `INSERT`, append-only. -/
def saveSummary (st : DbState) (summary : SummaryInput) : DbState × Nat :=
  let row : SummaryRow :=
    { rowid := st.nextSummaryRowid, chatId := summary.chatId,
      periodStart := summary.periodStart, periodEnd := summary.periodEnd,
      summaryText := orNull summary.summaryText,
      actionItems := orNull summary.actionItems }
  ({ st with summaries := st.summaries ++ [row],
             lastInsertRowid := st.nextSummaryRowid,
             nextSummaryRowid := st.nextSummaryRowid + 1 },
   st.nextSummaryRowid)

/-- `ORDER BY created_at ASC`, realised as a sort by the stored
`created_at` text. -/
def createdLe (a b : MsgRow) : Prop := strLe a.createdAt b.createdAt = true

instance : DecidableRel createdLe := fun a b => by
  unfold createdLe
  infer_instance

instance : IsTotal MsgRow createdLe :=
  ⟨fun a b => strLeData_total a.createdAt.data b.createdAt.data⟩

instance : IsTrans MsgRow createdLe :=
  ⟨fun a b c => strLeData_trans a.createdAt.data b.createdAt.data c.createdAt.data⟩

def sortByCreated (l : List MsgRow) : List MsgRow :=
  List.insertionSort createdLe l

/-- SQLite `DATE(x)` on an ISO-8601 datetime string, and equally the
JavaScript `iso.split('T')[0]`: the text before the first `T`. -/
def dateOf (s : String) : String :=
  String.mk (s.data.takeWhile (fun c => !(c == 'T')))

/-- `getMessages` (`src/lib/db.ts` lines 260-287): rows of the chat,
restricted — when `since` is given — by `created_at > since.toISOString()`
(strict, full-timestamp), ordered by creation time ascending. -/
def getMessages (st : DbState) (chatId : String) (since : Option String) :
    List MsgRow :=
  sortByCreated (st.messages.filter (fun r =>
    r.chatId == chatId &&
    (match since with
     | none => true
     | some t => strLt t r.createdAt)))

/-- `getMessagesByDateRange` (`src/lib/db.ts` lines 292-317): rows of the
chat with `DATE(created_at)` between the day parts of the two bounds,
inclusive on both ends, ordered by creation time ascending. -/
def getMessagesByDateRange (st : DbState) (chatId : String)
    (startIso endIso : String) : List MsgRow :=
  sortByCreated (st.messages.filter (fun r =>
    r.chatId == chatId &&
    strLe (dateOf startIso) (dateOf r.createdAt) &&
    strLe (dateOf r.createdAt) (dateOf endIso)))

/-! ### The Graph client (`src/lib/microsoft-graph.ts`)

`retryWithBackoff` is embedded over an oracle `outcome : Nat → Except GErr α`
giving the result of each attempt of the wrapped function; the loop of
`getChatMessages` is embedded over the list of pages the server returns,
each carrying its `value` array and optional `@odata.nextLink`. -/

/-- An error thrown by an attempt, as `retryWithBackoff` inspects it:
`error.statusCode` and `error.code` (numeric). -/
structure GErr where
  statusCode : Option Nat := none
  code : Option Nat := none
deriving DecidableEq, Repr

/-- `const statusCode = error.statusCode || error.code` with JavaScript
falsiness (an absent or zero `statusCode` falls through to `code`). -/
def errStatus (e : GErr) : Nat :=
  match e.statusCode with
  | some s => if s = 0 then e.code.getD 0 else s
  | none => e.code.getD 0

/-- `statusCode === 429 || statusCode === 500 || statusCode === 503`. -/
def isRetriableStatus (s : Nat) : Bool :=
  s == 429 || s == 500 || s == 503

/-- The `GraphAPIError` thrown after the loop: a message, the last
underlying error, and the attempt count it reports. -/
structure GraphFailure where
  message : String
  originalError : Option GErr
  attempts : Nat
deriving DecidableEq, Repr

def retryFailMessage : String := "Failed after multiple retry attempts"

/-- Observable trace of one `retryWithBackoff` run: the outcome, how many
attempts were made, and the sleeps (ms) performed between attempts. -/
structure RetryTrace (α : Type) where
  result : Except GraphFailure α
  attemptsMade : Nat
  sleeps : List Nat
deriving Repr

/-- The `for` loop of `retryWithBackoff` (`src/lib/microsoft-graph.ts`
lines 194-229).  `fuel` is the number of loop iterations left
(`maxAttempts - attempt`); a failed attempt breaks out to the throw when
its status is not retriable or it was the last attempt, and otherwise
sleeps `2^attempt * 1000` ms and retries. -/
def retryGo (outcome : Nat → Except GErr α) (maxAttempts : Nat) :
    Nat → Nat → Option GErr → List Nat → Nat → RetryTrace α
  | 0, _, lastError, sleeps, made =>
    ⟨Except.error ⟨retryFailMessage, lastError, maxAttempts⟩, made, sleeps⟩
  | fuel + 1, attempt, _, sleeps, made =>
    match outcome attempt with
    | Except.ok v => ⟨Except.ok v, made + 1, sleeps⟩
    | Except.error e =>
      if !(isRetriableStatus (errStatus e)) || attempt == maxAttempts - 1 then
        ⟨Except.error ⟨retryFailMessage, some e, maxAttempts⟩, made + 1, sleeps⟩
      else
        retryGo outcome maxAttempts fuel (attempt + 1) (some e)
          (sleeps ++ [2 ^ attempt * 1000]) (made + 1)

/-- `retryWithBackoff(fn, maxAttempts = 3)`. -/
def retryWithBackoff (outcome : Nat → Except GErr α) (maxAttempts : Nat) :
    RetryTrace α :=
  retryGo outcome maxAttempts maxAttempts 0 none [] 0

/-- One page of a paginated Graph response: the `value` array and the
optional `@odata.nextLink`. -/
structure GraphPage (α : Type) where
  value : List α
  nextLink : Option String
deriving DecidableEq, Repr

/-- The page sequence is well formed: at least one response, every page
before the last carries a next-link, and the last does not. -/
def chainedPages : List (GraphPage α) → Bool
  | [] => false
  | [p] => p.nextLink.isNone
  | p :: q :: rest => p.nextLink.isSome && chainedPages (q :: rest)

/-- The `while (url)` loop of `getChatMessages` (`src/lib/microsoft-graph.ts`
lines 151-188) over the responses the server returns in order: each
iteration appends the page records and follows the next-link; the loop
stops after the first page without one. -/
def getChatMessages : List (GraphPage α) → List α
  | [] => []
  | p :: rest =>
    p.value ++
      (match p.nextLink with
       | some _ => getChatMessages rest
       | none => [])

/-! ### The summarization providers (`src/lib/ollama.ts`, `src/lib/claude.ts`)

The network is an oracle of per-attempt outcomes; an attempt either yields
the response text or throws `NetErr` (a thrown fetch/SDK error, or the
provider error thrown for a non-ok HTTP status, as the retriability check
sees it). -/

/-- An error caught inside a provider retry loop: `error.name`,
`error.message` and the numeric status (`error.status || error.statusCode`). -/
structure NetErr where
  name : Option String := none
  message : String := ""
  status : Option Nat := none
deriving DecidableEq, Repr

/-- An `OllamaError`. -/
structure OllamaFailure where
  message : String
  cause : Option NetErr
deriving DecidableEq, Repr

/-- A `ClaudeAPIError`. -/
structure ClaudeFailure where
  message : String
  cause : Option NetErr
deriving DecidableEq, Repr

/-- Case-sensitive substring test (`String.prototype.includes`). -/
def containsExactAux (needle : List Char) : List Char → Bool
  | [] => needle.isPrefixOf []
  | c :: rest => needle.isPrefixOf (c :: rest) || containsExactAux needle rest

/-- Case-insensitive substring test
(`message.toLowerCase().includes(needle)` for an ASCII needle). -/
def containsCI (hay needle : String) : Bool :=
  (findFirstLabel needle.data hay.data).isSome

/-- The retriability test of the Ollama loop (`src/lib/ollama.ts`):
abort (timeout), connection refused, or a timeout/connection message. -/
def ollamaIsRetriable (e : NetErr) : Bool :=
  e.name == some "AbortError" ||
  containsExactAux "ECONNREFUSED".data e.message.data ||
  containsCI e.message "timeout" ||
  containsCI e.message "connection"

def ollamaEmptyMessage : String := "Cannot generate summary from empty message list"
def providerRetryFailMessage : String := "Failed to generate summary after retries"

/-- The Ollama retry loop: `maxAttempts = 2`, flat 1s backoff.  The pair
result carries the outcome and the number of network calls issued. -/
def ollamaLoop (net : Nat → Except NetErr String) :
    Nat → Nat → Option NetErr → Nat → Except OllamaFailure String × Nat
  | 0, _, lastError, calls =>
    (Except.error ⟨providerRetryFailMessage, lastError⟩, calls)
  | fuel + 1, attempt, _, calls =>
    match net attempt with
    | Except.ok text => (Except.ok text, calls + 1)
    | Except.error e =>
      if !(ollamaIsRetriable e) || attempt == 2 - 1 then
        (Except.error ⟨providerRetryFailMessage, some e⟩, calls + 1)
      else
        ollamaLoop net fuel (attempt + 1) (some e) (calls + 1)

/-- A Graph message as the providers receive it. -/
structure GraphMessage where
  id : String
  authorDisplayName : Option String
  bodyContent : Option String
  createdDateTime : String
deriving DecidableEq, Repr

/-- `generateSummary` of `src/lib/ollama.ts` lines 23-91: the empty-list
guard throws `OllamaError` before any network call; otherwise the retry
loop runs (the prompt construction does not affect the observable
outcome/call-count trace and is elided). -/
def ollamaGenerateSummary (messages : List GraphMessage) (date : String)
    (net : Nat → Except NetErr String) : Except OllamaFailure String × Nat :=
  if messages.length = 0 then
    (Except.error ⟨ollamaEmptyMessage, none⟩, 0)
  else
    ollamaLoop net 2 0 none 0

/-- The retriability test of the Claude loop (`src/lib/claude.ts`):
429, 529, 500, 503, or a timeout/connection message. -/
def claudeIsRetriable (e : NetErr) : Bool :=
  (match e.status with
   | some s => s == 429 || s == 529 || s == 500 || s == 503
   | none => false) ||
  containsCI e.message "timeout" ||
  containsCI e.message "connection"

def claudeEmptyMessage : String := "Cannot generate summary from empty message list"
def claudeNoKeyMessage : String := "ANTHROPIC_API_KEY environment variable is not set"

/-- The Claude retry loop: `maxAttempts = 3`, exponential backoff. -/
def claudeLoop (net : Nat → Except NetErr String) :
    Nat → Nat → Option NetErr → Nat → Except ClaudeFailure String × Nat
  | 0, _, lastError, calls =>
    (Except.error ⟨providerRetryFailMessage, lastError⟩, calls)
  | fuel + 1, attempt, _, calls =>
    match net attempt with
    | Except.ok text => (Except.ok text, calls + 1)
    | Except.error e =>
      if !(claudeIsRetriable e) || attempt == 3 - 1 then
        (Except.error ⟨providerRetryFailMessage, some e⟩, calls + 1)
      else
        claudeLoop net fuel (attempt + 1) (some e) (calls + 1)

/-- `generateSummary` of `src/lib/claude.ts` lines 17-96: the empty-list
guard throws `ClaudeAPIError` first, then the missing-key guard (an unset
or empty `ANTHROPIC_API_KEY` is falsy), both before any network call. -/
def claudeGenerateSummary (messages : List GraphMessage) (date : String)
    (apiKey : Option String) (net : Nat → Except NetErr String) :
    Except ClaudeFailure String × Nat :=
  if messages.length = 0 then
    (Except.error ⟨claudeEmptyMessage, none⟩, 0)
  else
    match apiKey with
    | none => (Except.error ⟨claudeNoKeyMessage, none⟩, 0)
    | some k =>
      if k = "" then (Except.error ⟨claudeNoKeyMessage, none⟩, 0)
      else claudeLoop net 3 0 none 0

/-! ### The provider factory (`src/lib/llm-provider.ts`) -/

/-- Which backend the factory hands out. -/
inductive ProviderTag where
  | ollama : ProviderTag
  | claude : ProviderTag
deriving DecidableEq, Repr

/-- `getLLMProvider` (`src/lib/llm-provider.ts` lines 53-67):
`process.env.AI_PROVIDER || 'ollama'` (unset and empty are falsy), then a
`switch` whose only non-default case is `'claude'`. -/
def getLLMProvider (aiProvider : Option String) : ProviderTag :=
  let providerType : String :=
    match aiProvider with
    | none => "ollama"
    | some s => if s = "" then "ollama" else s
  if providerType = "claude" then ProviderTag.claude else ProviderTag.ollama

/-! ### The API routes (`src/app/api/messages/route.ts`,
`src/app/api/summarize/route.ts`) -/

/-- The cache loop of `GET /api/messages` (lines 45-72): each fetched
message is passed to `saveMessage` inside a `try` whose `catch` skips to
the next message, and `savedCount` is incremented after a `saveMessage`
call that did not throw.  `saveMessage` resolves duplicates with
`ON CONFLICT DO NOTHING` and therefore never throws on them, so the
increment runs for every fetched message. -/
def messagesSaveLoop (st : DbState) (fetched : List MessageInput) :
    DbState × Nat :=
  fetched.foldl
    (fun acc msg =>
      let saved := saveMessage acc.1 msg
      (saved.1, acc.2 + 1))
    (st, 0)

/-- `JSON.stringify` of the five parsed sections as the summarize route
persists them (string escaping is not modelled; the fields the pipeline
produces are plain text). -/
def jsonOfSections (o : SummaryOutput) : String :=
  "\x7b\"overview\":\"" ++ o.overview ++
  "\",\"decisions\":\"" ++ o.decisions ++
  "\",\"actionItems\":\"" ++ o.actionItems ++
  "\",\"blockers\":\"" ++ o.blockers ++
  "\",\"resources\":\"" ++ o.resources ++ "\"\x7d"

/-- The observable outcome of one summarize pass. -/
inductive SummarizeOutcome where
  | noMessages : SummarizeOutcome
  | llmFailed : SummarizeOutcome
  | ok : Nat → String → SummaryOutput → Nat → SummarizeOutcome
deriving DecidableEq, Repr

/-- `POST /api/summarize` (lines 22-36 and onward) after validation: query
the range from the cache; when it is empty, return the typed
`NO_MESSAGES` outcome with the model never called and nothing persisted;
otherwise call the provider (`llm`, an oracle that may fail), parse, and
append a summary row.  The third component counts model backend calls. -/
def summarizePass (st : DbState) (chatId startIso endIso : String)
    (llm : List MsgRow → Except Unit String) :
    DbState × SummarizeOutcome × Nat :=
  let messages := getMessagesByDateRange st chatId startIso endIso
  if messages.length = 0 then
    (st, SummarizeOutcome.noMessages, 0)
  else
    match llm messages with
    | Except.error _ => (st, SummarizeOutcome.llmFailed, 1)
    | Except.ok text =>
      let parsed := parseSummaryResponse text
      let saved := saveSummary st
        { chatId := chatId, periodStart := startIso, periodEnd := endIso,
          summaryText := some text,
          actionItems := some (jsonOfSections parsed) }
      (saved.1, SummarizeOutcome.ok saved.2 text parsed messages.length, 1)

/-! ### Concrete fixtures used by witnesses and counterexamples -/

/-- A sample message. -/
def msg1 : MessageInput :=
  { messageId := "m1", chatId := "c1", author := some "Alice",
    content := some "hi", createdAt := "2024-01-15T10:00:00Z" }

/-! ### Claim theorems -/

/-- C1 (amended): for every cache state and message whose remote id is
already present, `saveMessage` leaves the state unchanged and never
throws, keeps exactly one row with that id, and a second call with the
same message equals the first; but the returned value is the connection
`last_insert_rowid` (unchanged from before the call), not a report that
no insertion occurred. -/
theorem saveMessage_duplicate_noop (st : DbState) (m : MessageInput)
    (h : st.messages.any (fun r => r.messageId == m.messageId) = true) :
    saveMessage st m = (st, st.lastInsertRowid) ∧
    (∀ n,
      (st.messages.filter (fun r => r.messageId == m.messageId)).length = n →
      ((saveMessage st m).1.messages.filter
        (fun r => r.messageId == m.messageId)).length = n) ∧
    saveMessage (saveMessage st m).1 m = saveMessage st m := by
  have hs : saveMessage st m = (st, st.lastInsertRowid) := by
    simp [saveMessage, h]
  refine ⟨hs, ?_, ?_⟩
  · intro n hn
    rw [hs]
    exact hn
  · rw [hs]
    exact hs

/-- Witness for C1: in the concrete two-call run the duplicate call is a
no-op returning the stale rowid 1. -/
theorem saveMessage_duplicate_noop_witness :
    saveMessage (saveMessage emptyDb msg1).1 msg1 =
      ((saveMessage emptyDb msg1).1, 1) := by
  have h := saveMessage_duplicate_noop (saveMessage emptyDb msg1).1 msg1 (by decide)
  exact h.1.trans (by decide)

/-- C1 counterexample: the duplicate call does not return a value
reporting that no insertion occurred (`false`, i.e. 0): it returns the
same rowid 1 that the genuinely inserting first call returned. -/
theorem saveMessage_duplicate_return_cex :
    (saveMessage (saveMessage emptyDb msg1).1 msg1).2 =
      (saveMessage emptyDb msg1).2 ∧
    (saveMessage (saveMessage emptyDb msg1).1 msg1).2 ≠ 0 := by
  decide

/-- C3 (code bug): fetching one message whose id is already cached makes
the route-visible `newMessageCount` 1 even though the cache did not grow —
`saveMessage` never throws on a duplicate, so the `savedCount++` after it
always runs and the `catch` meant to skip duplicates is dead. -/
theorem messagesSaveLoop_counts_duplicate :
    (messagesSaveLoop (saveMessage emptyDb msg1).1 [msg1]).2 = 1 ∧
    (messagesSaveLoop (saveMessage emptyDb msg1).1 [msg1]).1.messages.length =
      ((saveMessage emptyDb msg1).1).messages.length := by
  decide

/-- C7: for a well-formed page sequence (every page but the last carries a
next-link, the last does not), the pagination loop returns the
concatenation of all pages' `value` arrays in order. -/
theorem getChatMessages_flattens (pages : List (GraphPage α))
    (h : chainedPages pages = true) :
    getChatMessages pages = (pages.map GraphPage.value).flatten := by
  induction pages with
  | nil => simp [chainedPages] at h
  | cons p rest ih =>
    cases rest with
    | nil =>
      cases hnl : p.nextLink with
      | some u =>
        simp only [chainedPages] at h
        rw [hnl] at h
        simp at h
      | none => simp [getChatMessages, hnl]
    | cons q rest2 =>
      simp only [chainedPages] at h
      have hs := (Bool.and_eq_true _ _).mp h
      cases hnl : p.nextLink with
      | none =>
        rw [hnl] at hs
        simp at hs
      | some u =>
        have hstep : getChatMessages (p :: q :: rest2) =
            p.value ++ getChatMessages (q :: rest2) := by
          show p.value ++
              (match p.nextLink with
               | some _ => getChatMessages (q :: rest2)
               | none => []) = p.value ++ getChatMessages (q :: rest2)
          rw [hnl]
        rw [hstep, ih hs.2]
        simp

/-- Witness for C7: two concrete pages flatten to one ordered result. -/
theorem getChatMessages_flattens_witness :
    getChatMessages
      [⟨[1, 2], some "next"⟩, ⟨([3] : List Nat), none⟩] = [1, 2, 3] := by
  have h := getChatMessages_flattens
    [⟨[1, 2], some "next"⟩, ⟨([3] : List Nat), none⟩] (by decide)
  exact h.trans (by decide)

/-- C8: when the queried range is empty, the summarize pass returns the
typed no-messages outcome with the cache state unchanged (no summary row
persisted) and zero model backend calls. -/
theorem summarizePass_empty_guard (st : DbState) (chat startIso endIso : String)
    (llm : List MsgRow → Except Unit String)
    (h : getMessagesByDateRange st chat startIso endIso = []) :
    summarizePass st chat startIso endIso llm =
      (st, SummarizeOutcome.noMessages, 0) := by
  simp [summarizePass, h]

/-- Witness for C8: on the empty cache a summarize request yields the
no-messages outcome and never calls the model. -/
theorem summarizePass_empty_guard_witness :
    summarizePass emptyDb "c1" "2024-01-15T08:00:00Z" "2024-01-16T20:00:00Z"
      (fun _ => Except.ok "text") =
      (emptyDb, SummarizeOutcome.noMessages, 0) :=
  summarizePass_empty_guard emptyDb "c1" _ _ _ rfl

/-- C9: both providers reject an empty message list with their own error
before issuing any network call (the call count stays 0), whatever the
date, API key, and network behaviour. -/
theorem generateSummary_empty_guard (date : String) (apiKey : Option String)
    (netO netC : Nat → Except NetErr String) :
    ollamaGenerateSummary [] date netO =
      (Except.error ⟨ollamaEmptyMessage, none⟩, 0) ∧
    claudeGenerateSummary [] date apiKey netC =
      (Except.error ⟨claudeEmptyMessage, none⟩, 0) :=
  ⟨rfl, rfl⟩

/-- C10: the provider factory is total over the `AI_PROVIDER` value — it
yields the Claude backend exactly for `'claude'` and the Ollama backend
for everything else, including unset and unrecognized values. -/
theorem getLLMProvider_total (env : Option String) :
    (getLLMProvider env = ProviderTag.claude ↔ env = some "claude") ∧
    (env ≠ some "claude" → getLLMProvider env = ProviderTag.ollama) := by
  cases env with
  | none =>
    refine ⟨⟨fun h => absurd h (by decide), fun h => by cases h⟩, fun _ => rfl⟩
  | some s =>
    by_cases hs : s = ""
    · subst hs
      refine ⟨⟨fun h => absurd h (by decide), fun h => ?_⟩, fun _ => rfl⟩
      · simp at h
    · by_cases hc : s = "claude"
      · subst hc
        exact ⟨⟨fun _ => rfl, fun _ => rfl⟩, fun h => absurd rfl h⟩
      · refine ⟨⟨fun h => ?_, fun h => ?_⟩, fun _ => ?_⟩
        · simp [getLLMProvider, hs, hc] at h
        · injection h with h2
          exact absurd h2 hc
        · simp [getLLMProvider, hs, hc]

/-- Witness for C10: an unrecognized provider name falls back to Ollama. -/
theorem getLLMProvider_total_witness :
    getLLMProvider (some "mistral") = ProviderTag.ollama :=
  (getLLMProvider_total (some "mistral")).2 (by decide)

theorem strLe_refl (s : String) : strLe s s = true :=
  strLeData_refl s.data

theorem strLt_irrefl (s : String) : strLt s s = false :=
  strLtData_irrefl s.data

theorem mem_sortByCreated (r : MsgRow) (l : List MsgRow) :
    r ∈ sortByCreated l ↔ r ∈ l :=
  (List.perm_insertionSort createdLe l).mem_iff

/-- C5: the date-range query returns exactly the rows of the chat whose
creation date, at day granularity, lies between the day parts of the two
bounds, inclusive on both ends; in particular, when the range is
non-degenerate, rows timestamped anywhere on the start day (for example
at 00:00:00) or on the end day (for example at 23:59:59) are included. -/
theorem getMessagesByDateRange_inclusive (st : DbState)
    (chat startIso endIso : String) :
    (∀ r, r ∈ getMessagesByDateRange st chat startIso endIso ↔
      (r ∈ st.messages ∧ r.chatId = chat ∧
        strLe (dateOf startIso) (dateOf r.createdAt) = true ∧
        strLe (dateOf r.createdAt) (dateOf endIso) = true)) ∧
    (strLe (dateOf startIso) (dateOf endIso) = true →
      ∀ r, r ∈ st.messages → r.chatId = chat →
        (dateOf r.createdAt = dateOf startIso ∨
          dateOf r.createdAt = dateOf endIso) →
        r ∈ getMessagesByDateRange st chat startIso endIso) := by
  have hmem : ∀ r, r ∈ getMessagesByDateRange st chat startIso endIso ↔
      (r ∈ st.messages ∧ r.chatId = chat ∧
        strLe (dateOf startIso) (dateOf r.createdAt) = true ∧
        strLe (dateOf r.createdAt) (dateOf endIso) = true) := by
    intro r
    unfold getMessagesByDateRange
    rw [mem_sortByCreated, List.mem_filter]
    simp [Bool.and_eq_true, and_assoc]
  refine ⟨hmem, ?_⟩
  intro hse r hr hchat hday
  refine (hmem r).mpr ⟨hr, hchat, ?_, ?_⟩
  · cases hday with
    | inl hd => rw [hd]; exact strLe_refl _
    | inr hd => rw [hd]; exact hse
  · cases hday with
    | inl hd => rw [hd]; exact hse
    | inr hd => rw [hd]; exact strLe_refl _

/-- A row at exactly 00:00:00 on the start day. -/
def rowStart : MsgRow :=
  { rowid := 1, messageId := "m1", chatId := "c1", author := none,
    content := none, createdAt := "2024-01-15T00:00:00Z" }

/-- A row at exactly 23:59:59 on the end day. -/
def rowEnd : MsgRow :=
  { rowid := 2, messageId := "m2", chatId := "c1", author := none,
    content := none, createdAt := "2024-01-16T23:59:59Z" }

/-- A cache holding the two boundary rows. -/
def dbBoundary : DbState :=
  { messages := [rowStart, rowEnd], summaries := [],
    lastInsertRowid := 2, nextMsgRowid := 3, nextSummaryRowid := 1 }

/-- Witness for C5: both boundary rows are returned for the range
2024-01-15 to 2024-01-16. -/
theorem getMessagesByDateRange_inclusive_witness :
    rowStart ∈ getMessagesByDateRange dbBoundary "c1"
      "2024-01-15T00:00:00Z" "2024-01-16T23:59:59Z" ∧
    rowEnd ∈ getMessagesByDateRange dbBoundary "c1"
      "2024-01-15T00:00:00Z" "2024-01-16T23:59:59Z" := by
  have h := getMessagesByDateRange_inclusive dbBoundary "c1"
    "2024-01-15T00:00:00Z" "2024-01-16T23:59:59Z"
  exact ⟨h.2 (by decide) rowStart (by decide) rfl (Or.inl (by decide)),
         h.2 (by decide) rowEnd (by decide) rfl (Or.inr (by decide))⟩

/-- C6: `getMessages` with a `since` bound returns exactly the rows of the
chat whose creation time is strictly after `since` (a row timestamped
exactly at `since` is excluded), ordered by creation time ascending, while
without `since` it returns all rows of the chat — a strictly-after filter
distinct from the inclusive day-granularity range query. -/
theorem getMessages_strictly_after (st : DbState) (chat sinceIso : String) :
    (∀ r, r ∈ getMessages st chat (some sinceIso) ↔
      (r ∈ st.messages ∧ r.chatId = chat ∧
        strLt sinceIso r.createdAt = true)) ∧
    (∀ r, r.createdAt = sinceIso →
      r ∉ getMessages st chat (some sinceIso)) ∧
    List.Sorted createdLe (getMessages st chat (some sinceIso)) ∧
    (∀ r, r ∈ getMessages st chat none ↔
      (r ∈ st.messages ∧ r.chatId = chat)) := by
  have hmem : ∀ r, r ∈ getMessages st chat (some sinceIso) ↔
      (r ∈ st.messages ∧ r.chatId = chat ∧
        strLt sinceIso r.createdAt = true) := by
    intro r
    unfold getMessages
    rw [mem_sortByCreated, List.mem_filter]
    simp [Bool.and_eq_true]
  refine ⟨hmem, ?_, ?_, ?_⟩
  · intro r hca hin
    have hlt := ((hmem r).mp hin).2.2
    rw [hca] at hlt
    rw [strLt_irrefl] at hlt
    cases hlt
  · unfold getMessages sortByCreated
    exact List.sorted_insertionSort createdLe _
  · intro r
    unfold getMessages
    rw [mem_sortByCreated, List.mem_filter]
    simp

/-- A row at exactly the `since` timestamp. -/
def rowAt : MsgRow :=
  { rowid := 1, messageId := "m1", chatId := "c1", author := none,
    content := none, createdAt := "2024-01-15T10:00:00Z" }

/-- A row one hour after `since`. -/
def rowLater : MsgRow :=
  { rowid := 2, messageId := "m2", chatId := "c1", author := none,
    content := none, createdAt := "2024-01-15T11:00:00Z" }

/-- A cache holding the two rows around the `since` bound. -/
def dbSince : DbState :=
  { messages := [rowAt, rowLater], summaries := [],
    lastInsertRowid := 2, nextMsgRowid := 3, nextSummaryRowid := 1 }

/-- Witness for C6: the row strictly after `since` is returned, the row at
exactly `since` is not. -/
theorem getMessages_strictly_after_witness :
    rowLater ∈ getMessages dbSince "c1" (some "2024-01-15T10:00:00Z") ∧
    rowAt ∉ getMessages dbSince "c1" (some "2024-01-15T10:00:00Z") := by
  have h := getMessages_strictly_after dbSince "c1" "2024-01-15T10:00:00Z"
  exact ⟨(h.1 rowLater).mpr ⟨by decide, rfl, by decide⟩, h.2.1 rowAt rfl⟩

/-- C2: with `maxAttempts = 3` the retry wrapper makes at most 3 attempts;
an attempt is followed by another only when it failed with status 429, 500
or 503; the sleeps performed are exactly 1s after the first failed attempt
and 2s after the second (so a 4s sleep never occurs); a non-retriable
first failure — for example a 400 — ends the run after exactly one attempt;
and when all three attempts fail the run ends with a `GraphAPIError`
wrapping the last underlying failure and the attempt count. -/
theorem retryWithBackoff_policy {α : Type} (outcome : Nat → Except GErr α) :
    (retryWithBackoff outcome 3).attemptsMade ≤ 3 ∧
    (∀ i, i + 1 < (retryWithBackoff outcome 3).attemptsMade →
      ∃ e, outcome i = Except.error e ∧
        isRetriableStatus (errStatus e) = true) ∧
    ((retryWithBackoff outcome 3).sleeps =
      (List.range ((retryWithBackoff outcome 3).attemptsMade - 1)).map
        (fun k => 2 ^ k * 1000)) ∧
    4000 ∉ (retryWithBackoff outcome 3).sleeps ∧
    (∀ e, outcome 0 = Except.error e →
      isRetriableStatus (errStatus e) = false →
      retryWithBackoff outcome 3 =
        ⟨Except.error ⟨retryFailMessage, some e, 3⟩, 1, []⟩) ∧
    (∀ e0 e1 e2, outcome 0 = Except.error e0 →
      outcome 1 = Except.error e1 → outcome 2 = Except.error e2 →
      isRetriableStatus (errStatus e0) = true →
      isRetriableStatus (errStatus e1) = true →
      retryWithBackoff outcome 3 =
        ⟨Except.error ⟨retryFailMessage, some e2, 3⟩, 3, [1000, 2000]⟩) := by
  rcases h0 : outcome 0 with e0 | v0
  · by_cases hr0 : isRetriableStatus (errStatus e0) = true
    · rcases h1 : outcome 1 with e1 | v1
      · by_cases hr1 : isRetriableStatus (errStatus e1) = true
        · rcases h2 : outcome 2 with e2 | v2
          · -- three failures, the first two retriable
            have ht : retryWithBackoff outcome 3 =
                ⟨Except.error ⟨retryFailMessage, some e2, 3⟩, 3, [1000, 2000]⟩ := by
              simp [retryWithBackoff, retryGo, h0, hr0, h1, hr1, h2]
            refine ⟨by simp [ht], ?_, by rw [ht]; show [1000, 2000] = List.map (fun k => 2 ^ k * 1000) (List.range (3 - 1)); decide, by simp [ht], ?_, ?_⟩
            · intro i hi
              rw [ht] at hi
              simp at hi
              match i, hi with
              | 0, _ => exact ⟨e0, h0, hr0⟩
              | 1, _ => exact ⟨e1, h1, hr1⟩
            · intro e he hne
              simp at he
              rw [← he] at hne
              rw [hr0] at hne
              cases hne
            · intro f0 f1 f2 hf0 hf1 hf2 _ _
              simp at hf2
              rw [← hf2]
              exact ht
          · -- success on the third attempt
            have ht : retryWithBackoff outcome 3 =
                ⟨Except.ok v2, 3, [1000, 2000]⟩ := by
              simp [retryWithBackoff, retryGo, h0, hr0, h1, hr1, h2]
            refine ⟨by simp [ht], ?_, by rw [ht]; show [1000, 2000] = List.map (fun k => 2 ^ k * 1000) (List.range (3 - 1)); decide, by simp [ht], ?_, ?_⟩
            · intro i hi
              rw [ht] at hi
              simp at hi
              match i, hi with
              | 0, _ => exact ⟨e0, h0, hr0⟩
              | 1, _ => exact ⟨e1, h1, hr1⟩
            · intro e he hne
              simp at he
              rw [← he] at hne
              rw [hr0] at hne
              cases hne
            · intro f0 f1 f2 hf0 hf1 hf2 _ _
              simp at hf2
        · -- second failure not retriable
          have hr1f : isRetriableStatus (errStatus e1) = false :=
            Bool.eq_false_iff.mpr hr1
          have ht : retryWithBackoff outcome 3 =
              ⟨Except.error ⟨retryFailMessage, some e1, 3⟩, 2, [1000]⟩ := by
            simp [retryWithBackoff, retryGo, h0, hr0, h1, hr1f]
          refine ⟨by simp [ht], ?_, by rw [ht]; show [1000] = List.map (fun k => 2 ^ k * 1000) (List.range (2 - 1)); decide, by simp [ht], ?_, ?_⟩
          · intro i hi
            rw [ht] at hi
            simp at hi
            match i, hi with
            | 0, _ => exact ⟨e0, h0, hr0⟩
          · intro e he hne
            simp at he
            rw [← he] at hne
            rw [hr0] at hne
            cases hne
          · intro f0 f1 f2 hf0 hf1 hf2 _ hrf1
            simp at hf1
            rw [← hf1] at hrf1
            rw [hr1f] at hrf1
            cases hrf1
      · -- success on the second attempt
        have ht : retryWithBackoff outcome 3 = ⟨Except.ok v1, 2, [1000]⟩ := by
          simp [retryWithBackoff, retryGo, h0, hr0, h1]
        refine ⟨by simp [ht], ?_, by rw [ht]; show [1000] = List.map (fun k => 2 ^ k * 1000) (List.range (2 - 1)); decide, by simp [ht], ?_, ?_⟩
        · intro i hi
          rw [ht] at hi
          simp at hi
          match i, hi with
          | 0, _ => exact ⟨e0, h0, hr0⟩
        · intro e he hne
          simp at he
          rw [← he] at hne
          rw [hr0] at hne
          cases hne
        · intro f0 f1 f2 hf0 hf1 hf2 _ _
          simp at hf1
    · -- first failure not retriable: exactly one attempt
      have hr0f : isRetriableStatus (errStatus e0) = false :=
        Bool.eq_false_iff.mpr hr0
      have ht : retryWithBackoff outcome 3 =
          ⟨Except.error ⟨retryFailMessage, some e0, 3⟩, 1, []⟩ := by
        simp [retryWithBackoff, retryGo, h0, hr0f]
      refine ⟨by simp [ht], ?_, by simp [ht], by simp [ht], ?_, ?_⟩
      · intro i hi
        rw [ht] at hi
        simp at hi
      · intro e he _
        simp at he
        rw [← he]
        exact ht
      · intro f0 f1 f2 hf0 hf1 hf2 hrf0 _
        simp at hf0
        rw [← hf0] at hrf0
        rw [hr0f] at hrf0
        cases hrf0
  · -- success on the first attempt
    have ht : retryWithBackoff outcome 3 = ⟨Except.ok v0, 1, []⟩ := by
      simp [retryWithBackoff, retryGo, h0]
    refine ⟨by simp [ht], ?_, by simp [ht], by simp [ht], ?_, ?_⟩
    · intro i hi
      rw [ht] at hi
      simp at hi
    · intro e he _
      simp at he
    · intro f0 f1 f2 hf0 hf1 hf2 _ _
      simp at hf0

/-- A remote endpoint that fails every attempt with HTTP 429. -/
def always429 : Nat → Except GErr Nat :=
  fun _ => Except.error { statusCode := some 429 }

/-- Witness for C2: against an endpoint that always returns 429 the
wrapper makes exactly 3 attempts, sleeps 1s and 2s, and ends with the
wrapping failure carrying the attempt count. -/
theorem retryWithBackoff_policy_witness :
    retryWithBackoff always429 3 =
      ⟨Except.error ⟨retryFailMessage, some { statusCode := some 429 }, 3⟩,
        3, [1000, 2000]⟩ :=
  (retryWithBackoff_policy always429).2.2.2.2.2 _ _ _ rfl rfl rfl
    (by decide) (by decide)

/-- C4: `parseSummaryResponse` is total (the Lean embedding is a function,
mirroring that the source never throws and always returns all five fields
as strings); a section whose label never occurs in the input —
case-insensitively, at no position — is the empty string; and a text
containing only an `Overview:` section parses to a populated overview with
the four other sections empty. -/
theorem parseSummaryResponse_sections (s : String) :
    ((∀ i, i < s.data.length →
        labelMatchesAt overviewLabel (s.data.drop i) = false) →
      (parseSummaryResponse s).overview = "") ∧
    ((∀ i, i < s.data.length →
        labelMatchesAt decisionsLabel (s.data.drop i) = false) →
      (parseSummaryResponse s).decisions = "") ∧
    ((∀ i, i < s.data.length →
        labelMatchesAt actionItemsLabel (s.data.drop i) = false) →
      (parseSummaryResponse s).actionItems = "") ∧
    ((∀ i, i < s.data.length →
        labelMatchesAt blockersLabel (s.data.drop i) = false) →
      (parseSummaryResponse s).blockers = "") ∧
    ((∀ i, i < s.data.length →
        labelMatchesAt resourcesLabel (s.data.drop i) = false) →
      (parseSummaryResponse s).resources = "") ∧
    parseSummaryResponse "Overview: Team discussed the deployment schedule." =
      { overview := "Team discussed the deployment schedule.",
        decisions := "", actionItems := "", blockers := "", resources := "" } := by
  refine ⟨?_, ?_, ?_, ?_, ?_, by decide⟩
  · intro h
    have hn : findFirstLabel overviewLabel s.data = none :=
      findFirstLabelAux_eq_none overviewLabel (by decide) s.data h 0
    simp [parseSummaryResponse, sectionExtract, hn, sectionToString]
  · intro h
    have hn : findFirstLabel decisionsLabel s.data = none :=
      findFirstLabelAux_eq_none decisionsLabel (by decide) s.data h 0
    simp [parseSummaryResponse, sectionExtract, hn, sectionToString]
  · intro h
    have hn : findFirstLabel actionItemsLabel s.data = none :=
      findFirstLabelAux_eq_none actionItemsLabel (by decide) s.data h 0
    simp [parseSummaryResponse, sectionExtract, hn, sectionToString]
  · intro h
    have hn : findFirstLabel blockersLabel s.data = none :=
      findFirstLabelAux_eq_none blockersLabel (by decide) s.data h 0
    simp [parseSummaryResponse, sectionExtract, hn, sectionToString]
  · intro h
    have hn : findFirstLabel resourcesLabel s.data = none :=
      findFirstLabelAux_eq_none resourcesLabel (by decide) s.data h 0
    simp [parseSummaryResponse, sectionExtract, hn, sectionToString]

/-- Witness for C4: a text with no section labels parses to all-empty
sections; shown here for the decisions field through the theorem. -/
theorem parseSummaryResponse_sections_witness :
    (parseSummaryResponse "status update only").decisions = "" :=
  (parseSummaryResponse_sections "status update only").2.1 (by decide)

end TeamsSummarize
